import Mathlib

/-!
Shallow embedding of the pane-tree model of `src/cascadia/TerminalApp/Pane.cpp`
(a recursively splittable binary tree of terminal panes).

A C++ `Pane` object holds six data fields relevant to the tree model:
`_splitState`, `_control` (nullable), `_profile` (`std::optional<GUID>`),
`_lastFocused`, `_firstChild` and `_secondChild` (nullable shared pointers).
We model a `Pane` as an inductive value carrying exactly those six fields,
with nullable pointers / optionals as `Option`.  A `TermControl` is a black box to
the tree logic; the tree only ever reads its identity, its `CloseOnExit` flag
and writes its settings, so we model it as a record of those three.  The live
UI focus signal (`GetControl().FocusState() != FocusState::Unfocused`) is an
external input, modelled as a function `FocusEnv` from control identity to
`Bool`.  UI-only state (grids, separators, row/column definitions) is out of
scope, as are the event-token mechanics; the observable effect of the focus
request in `_CloseChild` is returned explicitly, and the `ConnectionClosed` /
`Closed` event cascade is modelled by `raisesClosed` / `sessionTerminated`.

Where the C++ would dereference a null pointer (e.g. `_CloseChild` on a node
without children), the total Lean function returns the input unchanged; all
theorems about such operations carry the well-formedness invariant `wfB`
satisfied by every reachable tree, under which those branches are unreachable.
-/

/-- The `SplitState` enum of Pane.h: `None`, `Vertical`, `Horizontal`. -/
inductive SplitState : Type where
  | none
  | vertical
  | horizontal
deriving DecidableEq

/-- The slice of a `TermControl` visible to the pane tree: an identity (which
control object it is), its current settings value, and its `CloseOnExit` flag.
Settings are abstract to the tree; we use `Nat` for both identity and settings. -/
structure TermControl : Type where
  cid : Nat
  settings : Nat
  closeOnExit : Bool
deriving DecidableEq

/-- Model of `control.UpdateSettings(settings)`: replace the control's settings. -/
def TermControl.withSettings (s : Nat) (c : TermControl) : TermControl :=
  ⟨c.cid, s, c.closeOnExit⟩

/-- The external UI focus signal: for a control identity, whether
`GetControl().FocusState() != FocusState::Unfocused` currently holds. -/
def FocusEnv : Type := Nat → Bool

/-- A pane-tree node, mirroring the fields of the C++ `Pane` class:
`_splitState`, `_control`, `_profile`, `_lastFocused`, `_firstChild`,
`_secondChild`.  Nothing here forces Leaf/Split exclusivity; that is an
invariant (`Pane.wfB`) proved to be preserved by the operations. -/
inductive Pane : Type where
  | mk (splitState : SplitState) (control : Option TermControl)
       (profile : Option Nat) (lastFocused : Bool)
       (firstChild : Option Pane) (secondChild : Option Pane)

/-- Field accessor for `_splitState`. -/
def Pane.splitState : Pane → SplitState
  | .mk ss _ _ _ _ _ => ss

/-- Field accessor for `_control`. -/
def Pane.control : Pane → Option TermControl
  | .mk _ c _ _ _ _ => c

/-- Field accessor for `_profile`. -/
def Pane.profile : Pane → Option Nat
  | .mk _ _ pr _ _ _ => pr

/-- Field accessor for `_lastFocused`. -/
def Pane.lastFocused : Pane → Bool
  | .mk _ _ _ lf _ _ => lf

/-- Field accessor for `_firstChild`. -/
def Pane.firstChild : Pane → Option Pane
  | .mk _ _ _ _ f _ => f

/-- Field accessor for `_secondChild`. -/
def Pane.secondChild : Pane → Option Pane
  | .mk _ _ _ _ _ s => s

/-- The `Pane` constructor `Pane(profile, control, lastFocused)`: a fresh leaf
with no children and `_splitState = None`. -/
def mkPane (profile : Nat) (control : TermControl) (lastFocused : Bool) : Pane :=
  .mk SplitState.none (some control) (some profile) lastFocused none none

/-- Modelled from the spec: the default value of the `lastFocused` constructor
argument, declared in the `Pane.h` header which is not part of the sources.
`SplitVertical` / `SplitHorizontal` construct their two children with
`std::make_shared<Pane>(profile, control)`, omitting this argument; per the
spec (§4.4) focus of the freshly created leaves is deferred to the external
layer ("the source defers to whichever child's session UI subsequently
receives focus"), i.e. both children start with `lastFocused = false`. -/
def defaultLastFocused : Bool := false

/-- Model of `Pane::_IsLeaf`: true iff `_splitState == SplitState::None`. -/
def Pane.isLeaf (p : Pane) : Bool :=
  p.splitState = SplitState.none

/-- Model of `Pane::GetLastFocusedTerminalControl`: on a leaf, the control iff
`_lastFocused`; otherwise the first child's result, and only if that is
null, the second child's. -/
def getLastFocusedTerminalControl : Pane → Option TermControl
  | .mk ss c _ lf f s =>
    if ss = SplitState.none then
      if lf then c else none
    else
      let firstFocused :=
        match f with
        | some a => getLastFocusedTerminalControl a
        | none => none
      match firstFocused with
      | some x => some x
      | none =>
        match s with
        | some b => getLastFocusedTerminalControl b
        | none => none

/-- Model of `Pane::GetLastFocusedProfile`: same traversal as
`GetLastFocusedTerminalControl`, returning the profile GUID instead. -/
def getLastFocusedProfile : Pane → Option Nat
  | .mk ss _ pr lf f s =>
    if ss = SplitState.none then
      if lf then pr else none
    else
      let firstFocused :=
        match f with
        | some a => getLastFocusedProfile a
        | none => none
      match firstFocused with
      | some x => some x
      | none =>
        match s with
        | some b => getLastFocusedProfile b
        | none => none

/-- Model of `Pane::_HasFocusedChild`: the own control is non-null and currently
focused per the UI signal, OR a non-null child recursively reports focus. -/
def hasFocusedChild (env : FocusEnv) : Pane → Bool
  | .mk _ c _ _ f s =>
    let controlFocused :=
      match c with
      | some ctrl => env ctrl.cid
      | none => false
    let firstFocused :=
      match f with
      | some a => hasFocusedChild env a
      | none => false
    let secondFocused :=
      match s with
      | some b => hasFocusedChild env b
      | none => false
    controlFocused || firstFocused || secondFocused

/-- Model of `Pane::CheckFocus` (the spec's `refreshFocusState`): on a leaf, set
`_lastFocused` from the live UI focus signal of the own control; on a split,
force `_lastFocused := false` and recurse into both children. -/
def checkFocus (env : FocusEnv) : Pane → Pane
  | .mk ss c pr _ f s =>
    if ss = SplitState.none then
      let controlFocused :=
        match c with
        | some ctrl => env ctrl.cid
        | none => false
      .mk ss c pr controlFocused f s
    else
      .mk ss c pr false
        (match f with
         | some a => some (checkFocus env a)
         | none => none)
        (match s with
         | some b => some (checkFocus env b)
         | none => none)

/-- Model of `Pane::CheckUpdateSettings` (the spec's `applySettingsForProfile`): on a
split, recurse into both children unconditionally; on a leaf, apply the
settings to the control iff the profile GUID matches. -/
def checkUpdateSettings (settings profile : Nat) : Pane → Pane
  | .mk ss c pr lf f s =>
    if ss = SplitState.none then
      if pr = some profile then
        .mk ss (c.map (TermControl.withSettings settings)) pr lf f s
      else
        .mk ss c pr lf f s
    else
      .mk ss c pr lf
        (match f with
         | some a => some (checkUpdateSettings settings profile a)
         | none => none)
        (match s with
         | some b => some (checkUpdateSettings settings profile b)
         | none => none)

/-- Model of `Pane::_CloseChild(closeFirst)`.  Returns the new state of the node,
paired with the identity of the control whose `Focus(Programmatic)` is
requested, if any (the only externally visible side effect besides the tree
update).  Case A (surviving child is a leaf): become that leaf, OR-ing the two
children's focus flags and requesting focus when the result is focused.
Case B (surviving child is a split): adopt its `_splitState` and two children
in place.  A node without two children would null-deref in the C++; the total
model returns it unchanged. -/
def closeChild (p : Pane) (closeFirst : Bool) : Pane × Option Nat :=
  match p with
  | .mk _ c pr lf f s =>
    match f, s with
    | some fc, some sc =>
      let remainingChild := if closeFirst then sc else fc
      if remainingChild.isLeaf then
        let control := if closeFirst then sc.control else fc.control
        let profile := if closeFirst then sc.profile else fc.profile
        let lastFocused := fc.lastFocused || sc.lastFocused
        (.mk SplitState.none control profile lastFocused none none,
         if lastFocused then control.map TermControl.cid else none)
      else
        (.mk remainingChild.splitState c pr lf
           remainingChild.firstChild remainingChild.secondChild, none)
    | f, s => (.mk p.splitState c pr lf f s, none)

/-- Model of `Pane::SplitVertical(profile, control)`: on a split node, recurse into the
first child if it has a focused descendant, else into the second if it does,
else do nothing; on a leaf, become a vertical split whose first child is a new
leaf taking the original `(profile, control)` and whose second child is a new
leaf taking the supplied ones (both built with the constructor's default
`lastFocused`, see `defaultLastFocused`), clearing the own control, profile
and focus flag. -/
def splitVertical (env : FocusEnv) (profile : Nat) (control : TermControl) :
    Pane → Pane
  | .mk ss c pr lf f s =>
    if ss = SplitState.none then
      .mk SplitState.vertical none none false
        (some (.mk SplitState.none c pr defaultLastFocused none none))
        (some (.mk SplitState.none (some control) (some profile)
          defaultLastFocused none none))
    else
      match f, s with
      | some fc, some sc =>
        if hasFocusedChild env fc then
          .mk ss c pr lf (some (splitVertical env profile control fc)) (some sc)
        else if hasFocusedChild env sc then
          .mk ss c pr lf (some fc) (some (splitVertical env profile control sc))
        else
          .mk ss c pr lf (some fc) (some sc)
      | f, s => .mk ss c pr lf f s

/-- Model of `Pane::SplitHorizontal(profile, control)`: identical to `SplitVertical`
except the resulting `_splitState` is `Horizontal`. -/
def splitHorizontal (env : FocusEnv) (profile : Nat) (control : TermControl) :
    Pane → Pane
  | .mk ss c pr lf f s =>
    if ss = SplitState.none then
      .mk SplitState.horizontal none none false
        (some (.mk SplitState.none c pr defaultLastFocused none none))
        (some (.mk SplitState.none (some control) (some profile)
          defaultLastFocused none none))
    else
      match f, s with
      | some fc, some sc =>
        if hasFocusedChild env fc then
          .mk ss c pr lf (some (splitHorizontal env profile control fc)) (some sc)
        else if hasFocusedChild env sc then
          .mk ss c pr lf (some fc) (some (splitHorizontal env profile control sc))
        else
          .mk ss c pr lf (some fc) (some sc)
      | f, s => .mk ss c pr lf f s

/-- The guard of the lambda registered in `Pane::_AddControlToRoot`: when a
control's `ConnectionClosed` event fires, the pane raises its own `Closed`
event iff `control.CloseOnExit()`. -/
def connectionClosedFires (control : TermControl) : Bool :=
  control.closeOnExit

/-- Whether a pane raises its `Closed` event when the session of identity
`cid` terminates: only leaves hold a live `ConnectionClosed` subscription
(splitting revokes the parent's token), and the handler fires the `Closed`
event iff the control matches and `CloseOnExit` holds. -/
def raisesClosed (p : Pane) (cid : Nat) : Bool :=
  p.isLeaf &&
    (match p.control with
     | some ctrl => decide (ctrl.cid = cid) && connectionClosedFires ctrl
     | none => false)

/-- Tree-level effect of the termination of session `cid`: each split node is
subscribed (via `_SetupChildCloseHandlers`) to its children's `Closed`
events, and on receiving one invokes `_CloseChild` on itself; a child that
does not itself raise `Closed` may still contain the terminating session
deeper down, which its own subtree handles.  A root leaf's `Closed` event is
consumed by the owning tab, outside this model. -/
def sessionTerminated : Pane → Nat → Pane
  | .mk ss c pr lf f s, cid =>
    match f, s with
    | some fc, some sc =>
      if raisesClosed fc cid then
        (closeChild (.mk ss c pr lf (some fc) (some sc)) true).1
      else if raisesClosed sc cid then
        (closeChild (.mk ss c pr lf (some fc) (some sc)) false).1
      else
        .mk ss c pr lf (some (sessionTerminated fc cid))
          (some (sessionTerminated sc cid))
    | f, s => .mk ss c pr lf f s

/-!  Instrumentation: measures on trees used to state the properties.  -/

/-- Structural well-formedness, satisfied by every reachable tree: a leaf
(`_splitState == None`) has a control and a profile and no children; a split
has neither control nor profile and two well-formed children. -/
def Pane.wfB : Pane → Bool
  | .mk ss c pr _ f s =>
    match ss with
    | SplitState.none => c.isSome && pr.isSome && f.isNone && s.isNone
    | _ =>
      c.isNone && pr.isNone &&
      (match f with
       | some a => a.wfB
       | none => false) &&
      (match s with
       | some b => b.wfB
       | none => false)

/-- Number of leaves of the tree whose `_lastFocused` flag is set. -/
def Pane.focusCount : Pane → Nat
  | .mk ss _ _ lf f s =>
    match ss with
    | SplitState.none => if lf then 1 else 0
    | _ =>
      (match f with
       | some a => a.focusCount
       | none => 0) +
      (match s with
       | some b => b.focusCount
       | none => 0)

/-- Every non-leaf node of the tree has `_lastFocused = false` (the flag is
meaningful only on leaves). -/
def Pane.splitsUnfocused : Pane → Bool
  | .mk ss _ _ lf f s =>
    match ss with
    | SplitState.none => true
    | _ =>
      !lf &&
      (match f with
       | some a => a.splitsUnfocused
       | none => true) &&
      (match s with
       | some b => b.splitsUnfocused
       | none => true)

/-- The focus part of the reachable-state invariant: at most one leaf is
marked `_lastFocused`, and no non-leaf is. -/
def Pane.focusOk (p : Pane) : Prop :=
  p.focusCount ≤ 1 ∧ p.splitsUnfocused = true

instance (p : Pane) : Decidable p.focusOk := by
  unfold Pane.focusOk
  infer_instance

/-- All controls present anywhere in the tree, in preorder. -/
def Pane.allControls : Pane → List TermControl
  | .mk _ c _ _ f s =>
    (match c with
     | some ctrl => [ctrl]
     | none => []) ++
    (match f with
     | some a => a.allControls
     | none => []) ++
    (match s with
     | some b => b.allControls
     | none => [])

/-- Identities of all controls present anywhere in the tree. -/
def Pane.controlIds (p : Pane) : List Nat :=
  p.allControls.map TermControl.cid

/-- The controls of the focused leaves (leaves with `_lastFocused` and a
non-null control), in first-child-before-second-child order. -/
def Pane.focusedControls : Pane → List TermControl
  | .mk ss c _ lf f s =>
    match ss with
    | SplitState.none =>
      if lf then
        match c with
        | some ctrl => [ctrl]
        | none => []
      else []
    | _ =>
      (match f with
       | some a => a.focusedControls
       | none => []) ++
      (match s with
       | some b => b.focusedControls
       | none => [])

/-- The profiles of the focused leaves (leaves with `_lastFocused` and an
engaged profile), in first-child-before-second-child order. -/
def Pane.focusedProfiles : Pane → List Nat
  | .mk ss _ pr lf f s =>
    match ss with
    | SplitState.none =>
      if lf then
        match pr with
        | some g => [g]
        | none => []
      else []
    | _ =>
      (match f with
       | some a => a.focusedProfiles
       | none => []) ++
      (match s with
       | some b => b.focusedProfiles
       | none => [])

/-- The `(profile, control)` data of every leaf, in preorder. -/
def Pane.leafData : Pane → List (Option Nat × Option TermControl)
  | .mk ss c pr _ f s =>
    match ss with
    | SplitState.none => [(pr, c)]
    | _ =>
      (match f with
       | some a => a.leafData
       | none => []) ++
      (match s with
       | some b => b.leafData
       | none => [])

/-- The tree with every control's settings normalised to `0`: two trees with
equal `eraseSettings` images agree on everything except settings values. -/
def Pane.eraseSettings : Pane → Pane
  | .mk ss c pr lf f s =>
    .mk ss (c.map (TermControl.withSettings 0)) pr lf
      (match f with
       | some a => some a.eraseSettings
       | none => none)
      (match s with
       | some b => some b.eraseSettings
       | none => none)

/-- Induction principle for `Pane` through the `Option`-typed children. -/
theorem pane_ind (P : Pane → Prop)
    (h : ∀ ss c pr lf f s,
      (∀ a, f = some a → P a) → (∀ b, s = some b → P b) →
      P (.mk ss c pr lf f s)) :
    ∀ p, P p
  | .mk ss c pr lf f s =>
    h ss c pr lf f s
      (fun a _ => pane_ind P h a)
      (fun b _ => pane_ind P h b)


/-!  Unfolding lemmas for the pattern-matching definitions  -/

@[simp]
theorem Pane.splitState_mk (ss c pr lf f s) :
    (Pane.mk ss c pr lf f s).splitState = ss := rfl

@[simp]
theorem Pane.control_mk (ss c pr lf f s) :
    (Pane.mk ss c pr lf f s).control = c := rfl

@[simp]
theorem Pane.profile_mk (ss c pr lf f s) :
    (Pane.mk ss c pr lf f s).profile = pr := rfl

@[simp]
theorem Pane.lastFocused_mk (ss c pr lf f s) :
    (Pane.mk ss c pr lf f s).lastFocused = lf := rfl

@[simp]
theorem Pane.firstChild_mk (ss c pr lf f s) :
    (Pane.mk ss c pr lf f s).firstChild = f := rfl

@[simp]
theorem Pane.secondChild_mk (ss c pr lf f s) :
    (Pane.mk ss c pr lf f s).secondChild = s := rfl

@[simp]
theorem gltcontrol_leaf (c pr lf f s) :
    getLastFocusedTerminalControl (.mk SplitState.none c pr lf f s) =
      if lf then c else none := by
  rw [getLastFocusedTerminalControl.eq_def]
  rfl

@[simp]
theorem gltcontrol_vert (c pr lf f s) :
    getLastFocusedTerminalControl (.mk SplitState.vertical c pr lf f s) =
      match (match f with
             | some a => getLastFocusedTerminalControl a
             | none => none) with
      | some x => some x
      | none =>
        match s with
        | some b => getLastFocusedTerminalControl b
        | none => none := by
  rw [getLastFocusedTerminalControl.eq_def]
  rfl

@[simp]
theorem gltcontrol_horiz (c pr lf f s) :
    getLastFocusedTerminalControl (.mk SplitState.horizontal c pr lf f s) =
      match (match f with
             | some a => getLastFocusedTerminalControl a
             | none => none) with
      | some x => some x
      | none =>
        match s with
        | some b => getLastFocusedTerminalControl b
        | none => none := by
  rw [getLastFocusedTerminalControl.eq_def]
  rfl

@[simp]
theorem glprofile_leaf (c pr lf f s) :
    getLastFocusedProfile (.mk SplitState.none c pr lf f s) =
      if lf then pr else none := by
  rw [getLastFocusedProfile.eq_def]
  rfl

@[simp]
theorem glprofile_vert (c pr lf f s) :
    getLastFocusedProfile (.mk SplitState.vertical c pr lf f s) =
      match (match f with
             | some a => getLastFocusedProfile a
             | none => none) with
      | some x => some x
      | none =>
        match s with
        | some b => getLastFocusedProfile b
        | none => none := by
  rw [getLastFocusedProfile.eq_def]
  rfl

@[simp]
theorem glprofile_horiz (c pr lf f s) :
    getLastFocusedProfile (.mk SplitState.horizontal c pr lf f s) =
      match (match f with
             | some a => getLastFocusedProfile a
             | none => none) with
      | some x => some x
      | none =>
        match s with
        | some b => getLastFocusedProfile b
        | none => none := by
  rw [getLastFocusedProfile.eq_def]
  rfl

@[simp]
theorem hasFocusedChild_mk (env ss c pr lf f s) :
    hasFocusedChild env (.mk ss c pr lf f s) =
      ((match c with
        | some ctrl => env ctrl.cid
        | none => false) ||
       (match f with
        | some a => hasFocusedChild env a
        | none => false) ||
       (match s with
        | some b => hasFocusedChild env b
        | none => false)) := by
  rw [hasFocusedChild.eq_def]

@[simp]
theorem checkFocus_leaf (env c pr lf f s) :
    checkFocus env (.mk SplitState.none c pr lf f s) =
      .mk SplitState.none c pr
        (match c with
         | some ctrl => env ctrl.cid
         | none => false) f s := by
  rw [checkFocus.eq_def]
  rfl

@[simp]
theorem checkFocus_vert (env c pr lf f s) :
    checkFocus env (.mk SplitState.vertical c pr lf f s) =
      .mk SplitState.vertical c pr false
        (match f with
         | some a => some (checkFocus env a)
         | none => none)
        (match s with
         | some b => some (checkFocus env b)
         | none => none) := by
  rw [checkFocus.eq_def]
  rfl

@[simp]
theorem checkFocus_horiz (env c pr lf f s) :
    checkFocus env (.mk SplitState.horizontal c pr lf f s) =
      .mk SplitState.horizontal c pr false
        (match f with
         | some a => some (checkFocus env a)
         | none => none)
        (match s with
         | some b => some (checkFocus env b)
         | none => none) := by
  rw [checkFocus.eq_def]
  rfl

@[simp]
theorem checkUpdateSettings_leaf (st g c pr lf f s) :
    checkUpdateSettings st g (.mk SplitState.none c pr lf f s) =
      (if pr = some g then
        .mk SplitState.none (c.map (TermControl.withSettings st)) pr lf f s
      else
        .mk SplitState.none c pr lf f s) := by
  rw [checkUpdateSettings.eq_def]
  rfl

@[simp]
theorem checkUpdateSettings_vert (st g c pr lf f s) :
    checkUpdateSettings st g (.mk SplitState.vertical c pr lf f s) =
      .mk SplitState.vertical c pr lf
        (match f with
         | some a => some (checkUpdateSettings st g a)
         | none => none)
        (match s with
         | some b => some (checkUpdateSettings st g b)
         | none => none) := by
  rw [checkUpdateSettings.eq_def]
  rfl

@[simp]
theorem checkUpdateSettings_horiz (st g c pr lf f s) :
    checkUpdateSettings st g (.mk SplitState.horizontal c pr lf f s) =
      .mk SplitState.horizontal c pr lf
        (match f with
         | some a => some (checkUpdateSettings st g a)
         | none => none)
        (match s with
         | some b => some (checkUpdateSettings st g b)
         | none => none) := by
  rw [checkUpdateSettings.eq_def]
  rfl

theorem closeChild_mk (ss c pr lf f s cf) :
    closeChild (.mk ss c pr lf f s) cf =
      match f, s with
      | some fc, some sc =>
        if (if cf then sc else fc).isLeaf then
          (.mk SplitState.none (if cf then sc.control else fc.control)
             (if cf then sc.profile else fc.profile)
             (fc.lastFocused || sc.lastFocused) none none,
           if fc.lastFocused || sc.lastFocused then
             (if cf then sc.control else fc.control).map TermControl.cid
           else none)
        else
          (.mk (if cf then sc else fc).splitState c pr lf
             (if cf then sc else fc).firstChild
             (if cf then sc else fc).secondChild, none)
      | _, _ => (.mk ss c pr lf f s, none) := by
  rw [closeChild.eq_def]
  cases f <;> cases s <;> rfl

theorem splitVertical_leaf (env g ctrl c pr lf f s) :
    splitVertical env g ctrl (.mk SplitState.none c pr lf f s) =
      .mk SplitState.vertical none none false
        (some (.mk SplitState.none c pr defaultLastFocused none none))
        (some (.mk SplitState.none (some ctrl) (some g)
          defaultLastFocused none none)) := by
  rw [splitVertical.eq_def]
  rfl

theorem splitVertical_vert (env g ctrl c pr lf f s) :
    splitVertical env g ctrl (.mk SplitState.vertical c pr lf f s) =
      (match f, s with
       | some fc, some sc =>
         if hasFocusedChild env fc then
           .mk SplitState.vertical c pr lf
             (some (splitVertical env g ctrl fc)) (some sc)
         else if hasFocusedChild env sc then
           .mk SplitState.vertical c pr lf
             (some fc) (some (splitVertical env g ctrl sc))
         else
           .mk SplitState.vertical c pr lf (some fc) (some sc)
       | f, s => .mk SplitState.vertical c pr lf f s) := by
  rw [splitVertical.eq_def]
  cases f <;> cases s <;> rfl

theorem splitVertical_horiz (env g ctrl c pr lf f s) :
    splitVertical env g ctrl (.mk SplitState.horizontal c pr lf f s) =
      (match f, s with
       | some fc, some sc =>
         if hasFocusedChild env fc then
           .mk SplitState.horizontal c pr lf
             (some (splitVertical env g ctrl fc)) (some sc)
         else if hasFocusedChild env sc then
           .mk SplitState.horizontal c pr lf
             (some fc) (some (splitVertical env g ctrl sc))
         else
           .mk SplitState.horizontal c pr lf (some fc) (some sc)
       | f, s => .mk SplitState.horizontal c pr lf f s) := by
  rw [splitVertical.eq_def]
  cases f <;> cases s <;> rfl

theorem splitHorizontal_leaf (env g ctrl c pr lf f s) :
    splitHorizontal env g ctrl (.mk SplitState.none c pr lf f s) =
      .mk SplitState.horizontal none none false
        (some (.mk SplitState.none c pr defaultLastFocused none none))
        (some (.mk SplitState.none (some ctrl) (some g)
          defaultLastFocused none none)) := by
  rw [splitHorizontal.eq_def]
  rfl

theorem splitHorizontal_vert (env g ctrl c pr lf f s) :
    splitHorizontal env g ctrl (.mk SplitState.vertical c pr lf f s) =
      (match f, s with
       | some fc, some sc =>
         if hasFocusedChild env fc then
           .mk SplitState.vertical c pr lf
             (some (splitHorizontal env g ctrl fc)) (some sc)
         else if hasFocusedChild env sc then
           .mk SplitState.vertical c pr lf
             (some fc) (some (splitHorizontal env g ctrl sc))
         else
           .mk SplitState.vertical c pr lf (some fc) (some sc)
       | f, s => .mk SplitState.vertical c pr lf f s) := by
  rw [splitHorizontal.eq_def]
  cases f <;> cases s <;> rfl

theorem splitHorizontal_horiz (env g ctrl c pr lf f s) :
    splitHorizontal env g ctrl (.mk SplitState.horizontal c pr lf f s) =
      (match f, s with
       | some fc, some sc =>
         if hasFocusedChild env fc then
           .mk SplitState.horizontal c pr lf
             (some (splitHorizontal env g ctrl fc)) (some sc)
         else if hasFocusedChild env sc then
           .mk SplitState.horizontal c pr lf
             (some fc) (some (splitHorizontal env g ctrl sc))
         else
           .mk SplitState.horizontal c pr lf (some fc) (some sc)
       | f, s => .mk SplitState.horizontal c pr lf f s) := by
  rw [splitHorizontal.eq_def]
  cases f <;> cases s <;> rfl

theorem sessionTerminated_mk (ss c pr lf f s cid) :
    sessionTerminated (.mk ss c pr lf f s) cid =
      (match f, s with
       | some fc, some sc =>
         if raisesClosed fc cid then
           (closeChild (.mk ss c pr lf (some fc) (some sc)) true).1
         else if raisesClosed sc cid then
           (closeChild (.mk ss c pr lf (some fc) (some sc)) false).1
         else
           .mk ss c pr lf (some (sessionTerminated fc cid))
             (some (sessionTerminated sc cid))
       | f, s => .mk ss c pr lf f s) := by
  rw [sessionTerminated.eq_def]

@[simp]
theorem wfB_leaf (c pr lf f s) :
    Pane.wfB (.mk SplitState.none c pr lf f s) =
      (c.isSome && pr.isSome && f.isNone && s.isNone) := by
  rw [Pane.wfB.eq_def]

@[simp]
theorem wfB_vert (c pr lf f s) :
    Pane.wfB (.mk SplitState.vertical c pr lf f s) =
      (c.isNone && pr.isNone &&
       (match f with
        | some a => a.wfB
        | none => false) &&
       (match s with
        | some b => b.wfB
        | none => false)) := by
  rw [Pane.wfB.eq_def]

@[simp]
theorem wfB_horiz (c pr lf f s) :
    Pane.wfB (.mk SplitState.horizontal c pr lf f s) =
      (c.isNone && pr.isNone &&
       (match f with
        | some a => a.wfB
        | none => false) &&
       (match s with
        | some b => b.wfB
        | none => false)) := by
  rw [Pane.wfB.eq_def]

@[simp]
theorem focusCount_leaf (c pr lf f s) :
    Pane.focusCount (.mk SplitState.none c pr lf f s) =
      if lf then 1 else 0 := by
  rw [Pane.focusCount.eq_def]

@[simp]
theorem focusCount_vert (c pr lf f s) :
    Pane.focusCount (.mk SplitState.vertical c pr lf f s) =
      (match f with
       | some a => a.focusCount
       | none => 0) +
      (match s with
       | some b => b.focusCount
       | none => 0) := by
  rw [Pane.focusCount.eq_def]

@[simp]
theorem focusCount_horiz (c pr lf f s) :
    Pane.focusCount (.mk SplitState.horizontal c pr lf f s) =
      (match f with
       | some a => a.focusCount
       | none => 0) +
      (match s with
       | some b => b.focusCount
       | none => 0) := by
  rw [Pane.focusCount.eq_def]

@[simp]
theorem splitsUnfocused_leaf (c pr lf f s) :
    Pane.splitsUnfocused (.mk SplitState.none c pr lf f s) = true := by
  rw [Pane.splitsUnfocused.eq_def]

@[simp]
theorem splitsUnfocused_vert (c pr lf f s) :
    Pane.splitsUnfocused (.mk SplitState.vertical c pr lf f s) =
      (!lf &&
       (match f with
        | some a => a.splitsUnfocused
        | none => true) &&
       (match s with
        | some b => b.splitsUnfocused
        | none => true)) := by
  rw [Pane.splitsUnfocused.eq_def]

@[simp]
theorem splitsUnfocused_horiz (c pr lf f s) :
    Pane.splitsUnfocused (.mk SplitState.horizontal c pr lf f s) =
      (!lf &&
       (match f with
        | some a => a.splitsUnfocused
        | none => true) &&
       (match s with
        | some b => b.splitsUnfocused
        | none => true)) := by
  rw [Pane.splitsUnfocused.eq_def]

@[simp]
theorem allControls_mk (ss c pr lf f s) :
    Pane.allControls (.mk ss c pr lf f s) =
      (match c with
       | some ctrl => [ctrl]
       | none => []) ++
      (match f with
       | some a => a.allControls
       | none => []) ++
      (match s with
       | some b => b.allControls
       | none => []) := by
  rw [Pane.allControls.eq_def]

@[simp]
theorem focusedControls_leaf (c pr lf f s) :
    Pane.focusedControls (.mk SplitState.none c pr lf f s) =
      (if lf then
        match c with
        | some ctrl => [ctrl]
        | none => []
      else []) := by
  rw [Pane.focusedControls.eq_def]

@[simp]
theorem focusedControls_vert (c pr lf f s) :
    Pane.focusedControls (.mk SplitState.vertical c pr lf f s) =
      (match f with
       | some a => a.focusedControls
       | none => []) ++
      (match s with
       | some b => b.focusedControls
       | none => []) := by
  rw [Pane.focusedControls.eq_def]

@[simp]
theorem focusedControls_horiz (c pr lf f s) :
    Pane.focusedControls (.mk SplitState.horizontal c pr lf f s) =
      (match f with
       | some a => a.focusedControls
       | none => []) ++
      (match s with
       | some b => b.focusedControls
       | none => []) := by
  rw [Pane.focusedControls.eq_def]

@[simp]
theorem focusedProfiles_leaf (c pr lf f s) :
    Pane.focusedProfiles (.mk SplitState.none c pr lf f s) =
      (if lf then
        match pr with
        | some g => [g]
        | none => []
      else []) := by
  rw [Pane.focusedProfiles.eq_def]

@[simp]
theorem focusedProfiles_vert (c pr lf f s) :
    Pane.focusedProfiles (.mk SplitState.vertical c pr lf f s) =
      (match f with
       | some a => a.focusedProfiles
       | none => []) ++
      (match s with
       | some b => b.focusedProfiles
       | none => []) := by
  rw [Pane.focusedProfiles.eq_def]

@[simp]
theorem focusedProfiles_horiz (c pr lf f s) :
    Pane.focusedProfiles (.mk SplitState.horizontal c pr lf f s) =
      (match f with
       | some a => a.focusedProfiles
       | none => []) ++
      (match s with
       | some b => b.focusedProfiles
       | none => []) := by
  rw [Pane.focusedProfiles.eq_def]

@[simp]
theorem leafData_leaf (c pr lf f s) :
    Pane.leafData (.mk SplitState.none c pr lf f s) = [(pr, c)] := by
  rw [Pane.leafData.eq_def]

@[simp]
theorem leafData_vert (c pr lf f s) :
    Pane.leafData (.mk SplitState.vertical c pr lf f s) =
      (match f with
       | some a => a.leafData
       | none => []) ++
      (match s with
       | some b => b.leafData
       | none => []) := by
  rw [Pane.leafData.eq_def]

@[simp]
theorem leafData_horiz (c pr lf f s) :
    Pane.leafData (.mk SplitState.horizontal c pr lf f s) =
      (match f with
       | some a => a.leafData
       | none => []) ++
      (match s with
       | some b => b.leafData
       | none => []) := by
  rw [Pane.leafData.eq_def]

@[simp]
theorem eraseSettings_mk (ss c pr lf f s) :
    Pane.eraseSettings (.mk ss c pr lf f s) =
      .mk ss (c.map (TermControl.withSettings 0)) pr lf
        (match f with
         | some a => some a.eraseSettings
         | none => none)
        (match s with
         | some b => some b.eraseSettings
         | none => none) := by
  rw [Pane.eraseSettings.eq_def]

/-!  Helper lemmas  -/

theorem list_head?_append {α : Type} (l₁ l₂ : List α) :
    (l₁ ++ l₂).head? =
      match l₁.head? with
      | some x => some x
      | none => l₂.head? := by
  cases l₁ <;> rfl

theorem getLastFocused_eq_head? (p : Pane) :
    getLastFocusedTerminalControl p = p.focusedControls.head? ∧
    getLastFocusedProfile p = p.focusedProfiles.head? := by
  induction p using pane_ind with
  | h ss c pr lf f s ihf ihs =>
    cases ss with
    | none =>
      refine ⟨?_, ?_⟩
      · simp only [gltcontrol_leaf, focusedControls_leaf]
        cases lf
        · rfl
        · cases c <;> rfl
      · simp only [glprofile_leaf, focusedProfiles_leaf]
        cases lf
        · rfl
        · cases pr <;> rfl
    | vertical =>
      refine ⟨?_, ?_⟩
      · simp only [gltcontrol_vert, focusedControls_vert]
        cases f with
        | none =>
          rw [list_head?_append]
          cases s with
          | none => rfl
          | some b => simpa using (ihs b rfl).1
        | some a =>
          rw [list_head?_append, ← (ihf a rfl).1]
          dsimp only
          cases getLastFocusedTerminalControl a with
          | some x => rfl
          | none =>
            cases s with
            | none => rfl
            | some b => simpa using (ihs b rfl).1
      · simp only [glprofile_vert, focusedProfiles_vert]
        cases f with
        | none =>
          rw [list_head?_append]
          cases s with
          | none => rfl
          | some b => simpa using (ihs b rfl).2
        | some a =>
          rw [list_head?_append, ← (ihf a rfl).2]
          dsimp only
          cases getLastFocusedProfile a with
          | some x => rfl
          | none =>
            cases s with
            | none => rfl
            | some b => simpa using (ihs b rfl).2
    | horizontal =>
      refine ⟨?_, ?_⟩
      · simp only [gltcontrol_horiz, focusedControls_horiz]
        cases f with
        | none =>
          rw [list_head?_append]
          cases s with
          | none => rfl
          | some b => simpa using (ihs b rfl).1
        | some a =>
          rw [list_head?_append, ← (ihf a rfl).1]
          dsimp only
          cases getLastFocusedTerminalControl a with
          | some x => rfl
          | none =>
            cases s with
            | none => rfl
            | some b => simpa using (ihs b rfl).1
      · simp only [glprofile_horiz, focusedProfiles_horiz]
        cases f with
        | none =>
          rw [list_head?_append]
          cases s with
          | none => rfl
          | some b => simpa using (ihs b rfl).2
        | some a =>
          rw [list_head?_append, ← (ihf a rfl).2]
          dsimp only
          cases getLastFocusedProfile a with
          | some x => rfl
          | none =>
            cases s with
            | none => rfl
            | some b => simpa using (ihs b rfl).2

@[simp]
theorem isLeaf_mk (ss c pr lf f s) :
    (Pane.mk ss c pr lf f s).isLeaf = decide (ss = SplitState.none) := rfl

theorem focusCount_nonleaf (ss c pr lf f s) (hss : ss ≠ SplitState.none) :
    (Pane.mk ss c pr lf f s).focusCount =
      (match f with
       | some a => a.focusCount
       | none => 0) +
      (match s with
       | some b => b.focusCount
       | none => 0) := by
  cases ss with
  | none => exact absurd rfl hss
  | vertical => exact focusCount_vert c pr lf f s
  | horizontal => exact focusCount_horiz c pr lf f s

theorem splitsUnfocused_nonleaf (ss c pr lf f s) (hss : ss ≠ SplitState.none) :
    (Pane.mk ss c pr lf f s).splitsUnfocused =
      (!lf &&
       (match f with
        | some a => a.splitsUnfocused
        | none => true) &&
       (match s with
        | some b => b.splitsUnfocused
        | none => true)) := by
  cases ss with
  | none => exact absurd rfl hss
  | vertical => exact splitsUnfocused_vert c pr lf f s
  | horizontal => exact splitsUnfocused_horiz c pr lf f s

theorem wfB_nonleaf (ss c pr lf f s) (hss : ss ≠ SplitState.none) :
    (Pane.mk ss c pr lf f s).wfB =
      (c.isNone && pr.isNone &&
       (match f with
        | some a => a.wfB
        | none => false) &&
       (match s with
        | some b => b.wfB
        | none => false)) := by
  cases ss with
  | none => exact absurd rfl hss
  | vertical => exact wfB_vert c pr lf f s
  | horizontal => exact wfB_horiz c pr lf f s

theorem eraseSettings_checkUpdateSettings (st g : Nat) (p : Pane) :
    (checkUpdateSettings st g p).eraseSettings = p.eraseSettings := by
  induction p using pane_ind with
  | h ss c pr lf f s ihf ihs =>
    cases ss with
    | none =>
      rw [checkUpdateSettings_leaf]
      by_cases h : pr = some g
      · rw [if_pos h]
        simp only [eraseSettings_mk]
        cases c <;> rfl
      · rw [if_neg h]
    | vertical =>
      rw [checkUpdateSettings_vert]
      simp only [eraseSettings_mk]
      cases f with
      | none => cases s with
        | none => rfl
        | some b => simp [ihs b rfl]
      | some a =>
        cases s with
        | none => simp [ihf a rfl]
        | some b => simp [ihf a rfl, ihs b rfl]
    | horizontal =>
      rw [checkUpdateSettings_horiz]
      simp only [eraseSettings_mk]
      cases f with
      | none => cases s with
        | none => rfl
        | some b => simp [ihs b rfl]
      | some a =>
        cases s with
        | none => simp [ihf a rfl]
        | some b => simp [ihf a rfl, ihs b rfl]

theorem leafData_checkUpdateSettings (st g : Nat) (p : Pane) :
    (checkUpdateSettings st g p).leafData =
      p.leafData.map (fun d =>
        if d.1 = some g then (d.1, d.2.map (TermControl.withSettings st))
        else d) := by
  induction p using pane_ind with
  | h ss c pr lf f s ihf ihs =>
    cases ss with
    | none =>
      rw [checkUpdateSettings_leaf]
      by_cases h : pr = some g
      · rw [if_pos h]
        simp [h]
      · rw [if_neg h]
        simp [h]
    | vertical =>
      rw [checkUpdateSettings_vert]
      simp only [leafData_vert, List.map_append]
      cases f with
      | none => cases s with
        | none => rfl
        | some b => simp [ihs b rfl]
      | some a =>
        cases s with
        | none => simp [ihf a rfl]
        | some b => simp [ihf a rfl, ihs b rfl]
    | horizontal =>
      rw [checkUpdateSettings_horiz]
      simp only [leafData_horiz, List.map_append]
      cases f with
      | none => cases s with
        | none => rfl
        | some b => simp [ihs b rfl]
      | some a =>
        cases s with
        | none => simp [ihf a rfl]
        | some b => simp [ihf a rfl, ihs b rfl]

theorem checkUpdateSettings_noMatch (st g : Nat) (p : Pane)
    (h : ∀ d ∈ p.leafData, d.1 ≠ some g) :
    checkUpdateSettings st g p = p := by
  induction p using pane_ind with
  | h ss c pr lf f s ihf ihs =>
    cases ss with
    | none =>
      rw [checkUpdateSettings_leaf]
      have hpr : pr ≠ some g := by
        have := h (pr, c) (by simp)
        simpa using this
      rw [if_neg hpr]
    | vertical =>
      rw [checkUpdateSettings_vert]
      cases f with
      | none => cases s with
        | none => rfl
        | some b =>
          have hb : checkUpdateSettings st g b = b :=
            ihs b rfl (fun d hd => h d (by simp [hd]))
          simp [hb]
      | some a =>
        have ha : checkUpdateSettings st g a = a :=
          ihf a rfl (fun d hd => h d (by simp [hd]))
        cases s with
        | none => simp [ha]
        | some b =>
          have hb : checkUpdateSettings st g b = b :=
            ihs b rfl (fun d hd => h d (by simp [hd]))
          simp [ha, hb]
    | horizontal =>
      rw [checkUpdateSettings_horiz]
      cases f with
      | none => cases s with
        | none => rfl
        | some b =>
          have hb : checkUpdateSettings st g b = b :=
            ihs b rfl (fun d hd => h d (by simp [hd]))
          simp [hb]
      | some a =>
        have ha : checkUpdateSettings st g a = a :=
          ihf a rfl (fun d hd => h d (by simp [hd]))
        cases s with
        | none => simp [ha]
        | some b =>
          have hb : checkUpdateSettings st g b = b :=
            ihs b rfl (fun d hd => h d (by simp [hd]))
          simp [ha, hb]

theorem raisesClosed_false_of (p : Pane) (cid : Nat)
    (h : ∀ ctrl ∈ p.allControls, ctrl.cid = cid → ctrl.closeOnExit = false) :
    raisesClosed p cid = false := by
  cases p with
  | mk ss c pr lf f s =>
    simp only [raisesClosed, Pane.control_mk]
    cases c with
    | none => simp
    | some ctrl =>
      by_cases hc : ctrl.cid = cid
      · have : ctrl.closeOnExit = false := by
          refine h ctrl ?_ hc
          simp [List.mem_append]
        simp [connectionClosedFires, this]
      · simp [hc]

theorem sessionTerminated_noop (p : Pane) (cid : Nat)
    (h : ∀ ctrl ∈ p.allControls, ctrl.cid = cid → ctrl.closeOnExit = false) :
    sessionTerminated p cid = p := by
  induction p using pane_ind with
  | h ss c pr lf f s ihf ihs =>
    rw [sessionTerminated_mk]
    cases f with
    | none => cases s <;> rfl
    | some fc =>
      cases s with
      | none => rfl
      | some sc =>
        have hsub1 : ∀ ctrl ∈ fc.allControls, ctrl.cid = cid →
            ctrl.closeOnExit = false := by
          intro ctrl hm
          refine h ctrl ?_
          simp [List.mem_append, hm]
        have hsub2 : ∀ ctrl ∈ sc.allControls, ctrl.cid = cid →
            ctrl.closeOnExit = false := by
          intro ctrl hm
          refine h ctrl ?_
          simp [List.mem_append, hm]
        have h1 := raisesClosed_false_of fc cid hsub1
        have h2 := raisesClosed_false_of sc cid hsub2
        simp [h1, h2, ihf fc rfl hsub1, ihs sc rfl hsub2]

theorem focusCount_splitVertical_le (env : FocusEnv) (g : Nat)
    (ctrl : TermControl) (p : Pane) :
    (splitVertical env g ctrl p).focusCount ≤ p.focusCount := by
  induction p using pane_ind with
  | h ss c pr lf f s ihf ihs =>
    cases ss with
    | none =>
      rw [splitVertical_leaf]
      simp [defaultLastFocused]
    | vertical =>
      rw [splitVertical_vert]
      cases f with
      | none => cases s <;> simp
      | some fc =>
        cases s with
        | none => simp
        | some sc =>
          dsimp only
          by_cases h1 : hasFocusedChild env fc
          · have := ihf fc rfl
            rw [if_pos h1]
            simp only [focusCount_vert]
            omega
          · by_cases h2 : hasFocusedChild env sc
            · have := ihs sc rfl
              rw [if_neg h1, if_pos h2]
              simp only [focusCount_vert]
              omega
            · rw [if_neg h1, if_neg h2]
    | horizontal =>
      rw [splitVertical_horiz]
      cases f with
      | none => cases s <;> simp
      | some fc =>
        cases s with
        | none => simp
        | some sc =>
          dsimp only
          by_cases h1 : hasFocusedChild env fc
          · have := ihf fc rfl
            rw [if_pos h1]
            simp only [focusCount_horiz]
            omega
          · by_cases h2 : hasFocusedChild env sc
            · have := ihs sc rfl
              rw [if_neg h1, if_pos h2]
              simp only [focusCount_horiz]
              omega
            · rw [if_neg h1, if_neg h2]

theorem focusCount_splitHorizontal_le (env : FocusEnv) (g : Nat)
    (ctrl : TermControl) (p : Pane) :
    (splitHorizontal env g ctrl p).focusCount ≤ p.focusCount := by
  induction p using pane_ind with
  | h ss c pr lf f s ihf ihs =>
    cases ss with
    | none =>
      rw [splitHorizontal_leaf]
      simp [defaultLastFocused]
    | vertical =>
      rw [splitHorizontal_vert]
      cases f with
      | none => cases s <;> simp
      | some fc =>
        cases s with
        | none => simp
        | some sc =>
          dsimp only
          by_cases h1 : hasFocusedChild env fc
          · have := ihf fc rfl
            rw [if_pos h1]
            simp only [focusCount_vert]
            omega
          · by_cases h2 : hasFocusedChild env sc
            · have := ihs sc rfl
              rw [if_neg h1, if_pos h2]
              simp only [focusCount_vert]
              omega
            · rw [if_neg h1, if_neg h2]
    | horizontal =>
      rw [splitHorizontal_horiz]
      cases f with
      | none => cases s <;> simp
      | some fc =>
        cases s with
        | none => simp
        | some sc =>
          dsimp only
          by_cases h1 : hasFocusedChild env fc
          · have := ihf fc rfl
            rw [if_pos h1]
            simp only [focusCount_horiz]
            omega
          · by_cases h2 : hasFocusedChild env sc
            · have := ihs sc rfl
              rw [if_neg h1, if_pos h2]
              simp only [focusCount_horiz]
              omega
            · rw [if_neg h1, if_neg h2]

theorem splitsUnfocused_splitVertical (env : FocusEnv) (g : Nat)
    (ctrl : TermControl) (p : Pane) (h : p.splitsUnfocused = true) :
    (splitVertical env g ctrl p).splitsUnfocused = true := by
  induction p using pane_ind with
  | h ss c pr lf f s ihf ihs =>
    cases ss with
    | none =>
      rw [splitVertical_leaf]
      simp [defaultLastFocused]
    | vertical =>
      rw [splitVertical_vert]
      simp only [splitsUnfocused_vert, Bool.and_eq_true,
        Bool.not_eq_true'] at h
      cases f with
      | none => cases s <;> simpa using h
      | some fc =>
        cases s with
        | none => simpa using h
        | some sc =>
          dsimp only
          by_cases h1 : hasFocusedChild env fc
          · rw [if_pos h1]
            simp only [splitsUnfocused_vert, Bool.and_eq_true,
              Bool.not_eq_true']
            exact ⟨⟨h.1.1, ihf fc rfl h.1.2⟩, h.2⟩
          · by_cases h2 : hasFocusedChild env sc
            · rw [if_neg h1, if_pos h2]
              simp only [splitsUnfocused_vert, Bool.and_eq_true,
                Bool.not_eq_true']
              exact ⟨h.1, ihs sc rfl h.2⟩
            · rw [if_neg h1, if_neg h2]
              simp only [splitsUnfocused_vert, Bool.and_eq_true,
                Bool.not_eq_true']
              exact h
    | horizontal =>
      rw [splitVertical_horiz]
      simp only [splitsUnfocused_horiz, Bool.and_eq_true,
        Bool.not_eq_true'] at h
      cases f with
      | none => cases s <;> simpa using h
      | some fc =>
        cases s with
        | none => simpa using h
        | some sc =>
          dsimp only
          by_cases h1 : hasFocusedChild env fc
          · rw [if_pos h1]
            simp only [splitsUnfocused_horiz, Bool.and_eq_true,
              Bool.not_eq_true']
            exact ⟨⟨h.1.1, ihf fc rfl h.1.2⟩, h.2⟩
          · by_cases h2 : hasFocusedChild env sc
            · rw [if_neg h1, if_pos h2]
              simp only [splitsUnfocused_horiz, Bool.and_eq_true,
                Bool.not_eq_true']
              exact ⟨h.1, ihs sc rfl h.2⟩
            · rw [if_neg h1, if_neg h2]
              simp only [splitsUnfocused_horiz, Bool.and_eq_true,
                Bool.not_eq_true']
              exact h

theorem splitsUnfocused_splitHorizontal (env : FocusEnv) (g : Nat)
    (ctrl : TermControl) (p : Pane) (h : p.splitsUnfocused = true) :
    (splitHorizontal env g ctrl p).splitsUnfocused = true := by
  induction p using pane_ind with
  | h ss c pr lf f s ihf ihs =>
    cases ss with
    | none =>
      rw [splitHorizontal_leaf]
      simp [defaultLastFocused]
    | vertical =>
      rw [splitHorizontal_vert]
      simp only [splitsUnfocused_vert, Bool.and_eq_true,
        Bool.not_eq_true'] at h
      cases f with
      | none => cases s <;> simpa using h
      | some fc =>
        cases s with
        | none => simpa using h
        | some sc =>
          dsimp only
          by_cases h1 : hasFocusedChild env fc
          · rw [if_pos h1]
            simp only [splitsUnfocused_vert, Bool.and_eq_true,
              Bool.not_eq_true']
            exact ⟨⟨h.1.1, ihf fc rfl h.1.2⟩, h.2⟩
          · by_cases h2 : hasFocusedChild env sc
            · rw [if_neg h1, if_pos h2]
              simp only [splitsUnfocused_vert, Bool.and_eq_true,
                Bool.not_eq_true']
              exact ⟨h.1, ihs sc rfl h.2⟩
            · rw [if_neg h1, if_neg h2]
              simp only [splitsUnfocused_vert, Bool.and_eq_true,
                Bool.not_eq_true']
              exact h
    | horizontal =>
      rw [splitHorizontal_horiz]
      simp only [splitsUnfocused_horiz, Bool.and_eq_true,
        Bool.not_eq_true'] at h
      cases f with
      | none => cases s <;> simpa using h
      | some fc =>
        cases s with
        | none => simpa using h
        | some sc =>
          dsimp only
          by_cases h1 : hasFocusedChild env fc
          · rw [if_pos h1]
            simp only [splitsUnfocused_horiz, Bool.and_eq_true,
              Bool.not_eq_true']
            exact ⟨⟨h.1.1, ihf fc rfl h.1.2⟩, h.2⟩
          · by_cases h2 : hasFocusedChild env sc
            · rw [if_neg h1, if_pos h2]
              simp only [splitsUnfocused_horiz, Bool.and_eq_true,
                Bool.not_eq_true']
              exact ⟨h.1, ihs sc rfl h.2⟩
            · rw [if_neg h1, if_neg h2]
              simp only [splitsUnfocused_horiz, Bool.and_eq_true,
                Bool.not_eq_true']
              exact h

theorem splitsUnfocused_checkFocus (env : FocusEnv) (p : Pane) :
    (checkFocus env p).splitsUnfocused = true := by
  induction p using pane_ind with
  | h ss c pr lf f s ihf ihs =>
    cases ss with
    | none =>
      rw [checkFocus_leaf]
      exact splitsUnfocused_leaf _ _ _ _ _
    | vertical =>
      rw [checkFocus_vert]
      simp only [splitsUnfocused_vert, Bool.and_eq_true, Bool.not_eq_true',
        Bool.not_false]
      refine ⟨⟨by trivial, ?_⟩, ?_⟩
      · cases f with
        | none => rfl
        | some a => exact ihf a rfl
      · cases s with
        | none => rfl
        | some b => exact ihs b rfl
    | horizontal =>
      rw [checkFocus_horiz]
      simp only [splitsUnfocused_horiz, Bool.and_eq_true, Bool.not_eq_true',
        Bool.not_false]
      refine ⟨⟨by trivial, ?_⟩, ?_⟩
      · cases f with
        | none => rfl
        | some a => exact ihf a rfl
      · cases s with
        | none => rfl
        | some b => exact ihs b rfl

theorem focusCount_checkFocus_le (env : FocusEnv) (p : Pane) :
    (checkFocus env p).focusCount ≤
      (p.allControls.filter (fun ctrl => env ctrl.cid)).length := by
  induction p using pane_ind with
  | h ss c pr lf f s ihf ihs =>
    cases ss with
    | none =>
      rw [checkFocus_leaf]
      simp only [focusCount_leaf, allControls_mk]
      cases c with
      | none => simp
      | some ctrl =>
        by_cases hc : env ctrl.cid
        · simp [hc]
        · simp [hc]
    | vertical =>
      rw [checkFocus_vert]
      simp only [focusCount_vert, allControls_mk, List.filter_append,
        List.length_append]
      have hf : (match (match f with
          | some a => some (checkFocus env a)
          | none => none) with
          | some a => a.focusCount
          | none => 0) ≤
          ((match f with
            | some a => a.allControls
            | none => []).filter (fun ctrl : TermControl => env ctrl.cid)).length := by
        cases f with
        | none => simp
        | some a => simpa using ihf a rfl
      have hs : (match (match s with
          | some b => some (checkFocus env b)
          | none => none) with
          | some b => b.focusCount
          | none => 0) ≤
          ((match s with
            | some b => b.allControls
            | none => []).filter (fun ctrl : TermControl => env ctrl.cid)).length := by
        cases s with
        | none => simp
        | some b => simpa using ihs b rfl
      omega
    | horizontal =>
      rw [checkFocus_horiz]
      simp only [focusCount_horiz, allControls_mk, List.filter_append,
        List.length_append]
      have hf : (match (match f with
          | some a => some (checkFocus env a)
          | none => none) with
          | some a => a.focusCount
          | none => 0) ≤
          ((match f with
            | some a => a.allControls
            | none => []).filter (fun ctrl : TermControl => env ctrl.cid)).length := by
        cases f with
        | none => simp
        | some a => simpa using ihf a rfl
      have hs : (match (match s with
          | some b => some (checkFocus env b)
          | none => none) with
          | some b => b.focusCount
          | none => 0) ≤
          ((match s with
            | some b => b.allControls
            | none => []).filter (fun ctrl : TermControl => env ctrl.cid)).length := by
        cases s with
        | none => simp
        | some b => simpa using ihs b rfl
      omega

theorem isLeaf_false_iff (q : Pane) :
    q.isLeaf = false ↔ q.splitState ≠ SplitState.none := by
  cases q with
  | mk ss c pr lf f s => simp [Pane.isLeaf]

theorem ite_pane_control (cf : Bool) (x y : Pane) :
    (if cf then x.control else y.control) = (if cf then x else y).control := by
  cases cf <;> rfl

theorem ite_pane_profile (cf : Bool) (x y : Pane) :
    (if cf then x.profile else y.profile) = (if cf then x else y).profile := by
  cases cf <;> rfl

theorem wfB_leaf_fields (q : Pane) (hq : q.isLeaf = true) (hwf : q.wfB = true) :
    q.control.isSome = true ∧ q.profile.isSome = true ∧
    q.firstChild = none ∧ q.secondChild = none := by
  cases q with
  | mk ss c pr lf f s =>
    have hss : ss = SplitState.none := by simpa [Pane.isLeaf] using hq
    subst hss
    have h2 : ((c.isSome = true ∧ pr.isSome = true) ∧ f = none) ∧ s = none := by
      simpa [Bool.and_eq_true, Option.isNone_iff_eq_none] using hwf
    exact ⟨h2.1.1.1, h2.1.1.2, h2.1.2, h2.2⟩

theorem wfB_split_fields (q : Pane) (hq : q.isLeaf = false)
    (hwf : q.wfB = true) :
    q.control = none ∧ q.profile = none ∧
    (∃ a, q.firstChild = some a ∧ a.wfB = true) ∧
    (∃ b, q.secondChild = some b ∧ b.wfB = true) := by
  cases q with
  | mk ss c pr lf f s =>
    have hss : ss ≠ SplitState.none := by
      simpa [Pane.isLeaf] using hq
    rw [wfB_nonleaf _ _ _ _ _ _ hss] at hwf
    simp only [Bool.and_eq_true, Option.isNone_iff_eq_none] at hwf
    refine ⟨hwf.1.1.1, hwf.1.1.2, ?_, ?_⟩
    · cases f with
      | none => simp at hwf
      | some a => exact ⟨a, rfl, by simpa using hwf.1.2⟩
    · cases s with
      | none => simp at hwf
      | some b => exact ⟨b, rfl, by simpa using hwf.2⟩

theorem focusCount_split_children (q : Pane) (hq : q.isLeaf = false) :
    q.focusCount =
      (match q.firstChild with
       | some a => a.focusCount
       | none => 0) +
      (match q.secondChild with
       | some b => b.focusCount
       | none => 0) := by
  cases q with
  | mk ss c pr lf f s =>
    have hss : ss ≠ SplitState.none := by simpa [Pane.isLeaf] using hq
    exact focusCount_nonleaf _ _ _ _ _ _ hss

theorem splitsUnfocused_split_parts (q : Pane) (hq : q.isLeaf = false)
    (h : q.splitsUnfocused = true) :
    q.lastFocused = false ∧
    (match q.firstChild with
     | some a => a.splitsUnfocused
     | none => true) = true ∧
    (match q.secondChild with
     | some b => b.splitsUnfocused
     | none => true) = true := by
  cases q with
  | mk ss c pr lf f s =>
    have hss : ss ≠ SplitState.none := by simpa [Pane.isLeaf] using hq
    rw [splitsUnfocused_nonleaf _ _ _ _ _ _ hss] at h
    simp only [Bool.and_eq_true, Bool.not_eq_true'] at h
    exact ⟨h.1.1, h.1.2, h.2⟩

theorem closeChild_wfB (p : Pane) (cf : Bool) (hwf : p.wfB = true) :
    (closeChild p cf).1.wfB = true := by
  cases p with
  | mk ss c pr lf f s =>
    rw [closeChild_mk]
    cases f with
    | none => cases s <;> exact hwf
    | some fc =>
      cases s with
      | none => exact hwf
      | some sc =>
        dsimp only
        have hss : ss ≠ SplitState.none := by
          intro h
          subst h
          simp only [wfB_leaf, Bool.and_eq_true] at hwf
          simpa using hwf.1.2
        rw [wfB_nonleaf _ _ _ _ _ _ hss] at hwf
        simp only [Bool.and_eq_true, Option.isNone_iff_eq_none] at hwf
        have hrwf : (if cf then sc else fc).wfB = true := by
          cases cf
          · simpa using hwf.1.2
          · simpa using hwf.2
        by_cases hr : (if cf then sc else fc).isLeaf
        · rw [if_pos hr]
          obtain ⟨hc1, hp1, _, _⟩ := wfB_leaf_fields _ hr hrwf
          rw [ite_pane_control, ite_pane_profile]
          simp [hc1, hp1]
        · rw [if_neg hr]
          obtain ⟨_, _, ⟨a, ha, hawf⟩, ⟨b, hb, hbwf⟩⟩ :=
            wfB_split_fields _ (by simpa using hr) hrwf
          have hss2 : (if cf then sc else fc).splitState ≠ SplitState.none :=
            (isLeaf_false_iff _).mp (by simpa using hr)
          rw [wfB_nonleaf _ _ _ _ _ _ hss2]
          simp [ha, hb, hawf, hbwf, hwf.1.1.1, hwf.1.1.2]

theorem closeChild_focusOk (p : Pane) (cf : Bool)
    (hwf : p.wfB = true) (hfo : p.focusOk) :
    (closeChild p cf).1.focusOk := by
  cases p with
  | mk ss c pr lf f s =>
    rw [closeChild_mk]
    cases f with
    | none => cases s <;> exact hfo
    | some fc =>
      cases s with
      | none => exact hfo
      | some sc =>
        dsimp only
        have hss : ss ≠ SplitState.none := by
          intro h
          subst h
          simp only [wfB_leaf, Bool.and_eq_true] at hwf
          simpa using hwf.1.2
        obtain ⟨hcount, hsu⟩ := hfo
        rw [focusCount_nonleaf _ _ _ _ _ _ hss] at hcount
        dsimp only at hcount
        rw [splitsUnfocused_nonleaf _ _ _ _ _ _ hss] at hsu
        simp only [Bool.and_eq_true, Bool.not_eq_true'] at hsu
        by_cases hr : (if cf then sc else fc).isLeaf
        · rw [if_pos hr]
          constructor
          · simp only [focusCount_leaf]
            split <;> omega
          · exact splitsUnfocused_leaf _ _ _ _ _
        · rw [if_neg hr]
          have hr' : (if cf then sc else fc).isLeaf = false := by
            simpa using hr
          have hss2 : (if cf then sc else fc).splitState ≠ SplitState.none :=
            (isLeaf_false_iff _).mp hr'
          have hle : (if cf then sc else fc).focusCount ≤
              fc.focusCount + sc.focusCount := by
            cases cf
            · simp
            · simp
          have hsu2 : (if cf then sc else fc).splitsUnfocused = true := by
            cases cf
            · simpa using hsu.1.2
            · simpa using hsu.2
          obtain ⟨_, hsf, hss3⟩ := splitsUnfocused_split_parts _ hr' hsu2
          rw [focusCount_split_children _ hr'] at hle
          constructor
          · rw [focusCount_nonleaf _ _ _ _ _ _ hss2]
            omega
          · rw [splitsUnfocused_nonleaf _ _ _ _ _ _ hss2]
            simp only [Bool.and_eq_true, Bool.not_eq_true']
            exact ⟨⟨hsu.1.1, hsf⟩, hss3⟩

theorem wfB_splitVertical (env : FocusEnv) (g : Nat) (ctrl : TermControl)
    (p : Pane) (hwf : p.wfB = true) :
    (splitVertical env g ctrl p).wfB = true := by
  induction p using pane_ind with
  | h ss c pr lf f s ihf ihs =>
    cases ss with
    | none =>
      rw [splitVertical_leaf]
      simp only [wfB_leaf, Bool.and_eq_true] at hwf
      simp [hwf.1.1.1, hwf.1.1.2]
    | vertical =>
      rw [splitVertical_vert]
      simp only [wfB_vert, Bool.and_eq_true] at hwf
      cases f with
      | none => simp at hwf
      | some fc =>
        cases s with
        | none => simp at hwf
        | some sc =>
          dsimp only
          have hfcw : fc.wfB = true := by simpa using hwf.1.2
          have hscw : sc.wfB = true := by simpa using hwf.2
          by_cases h1 : hasFocusedChild env fc
          · rw [if_pos h1]
            simp [hwf.1.1.1, hwf.1.1.2, ihf fc rfl hfcw, hscw]
          · by_cases h2 : hasFocusedChild env sc
            · rw [if_neg h1, if_pos h2]
              simp [hwf.1.1.1, hwf.1.1.2, hfcw, ihs sc rfl hscw]
            · rw [if_neg h1, if_neg h2]
              simp [hwf.1.1.1, hwf.1.1.2, hfcw, hscw]
    | horizontal =>
      rw [splitVertical_horiz]
      simp only [wfB_horiz, Bool.and_eq_true] at hwf
      cases f with
      | none => simp at hwf
      | some fc =>
        cases s with
        | none => simp at hwf
        | some sc =>
          dsimp only
          have hfcw : fc.wfB = true := by simpa using hwf.1.2
          have hscw : sc.wfB = true := by simpa using hwf.2
          by_cases h1 : hasFocusedChild env fc
          · rw [if_pos h1]
            simp [hwf.1.1.1, hwf.1.1.2, ihf fc rfl hfcw, hscw]
          · by_cases h2 : hasFocusedChild env sc
            · rw [if_neg h1, if_pos h2]
              simp [hwf.1.1.1, hwf.1.1.2, hfcw, ihs sc rfl hscw]
            · rw [if_neg h1, if_neg h2]
              simp [hwf.1.1.1, hwf.1.1.2, hfcw, hscw]

theorem wfB_splitHorizontal (env : FocusEnv) (g : Nat) (ctrl : TermControl)
    (p : Pane) (hwf : p.wfB = true) :
    (splitHorizontal env g ctrl p).wfB = true := by
  induction p using pane_ind with
  | h ss c pr lf f s ihf ihs =>
    cases ss with
    | none =>
      rw [splitHorizontal_leaf]
      simp only [wfB_leaf, Bool.and_eq_true] at hwf
      simp [hwf.1.1.1, hwf.1.1.2]
    | vertical =>
      rw [splitHorizontal_vert]
      simp only [wfB_vert, Bool.and_eq_true] at hwf
      cases f with
      | none => simp at hwf
      | some fc =>
        cases s with
        | none => simp at hwf
        | some sc =>
          dsimp only
          have hfcw : fc.wfB = true := by simpa using hwf.1.2
          have hscw : sc.wfB = true := by simpa using hwf.2
          by_cases h1 : hasFocusedChild env fc
          · rw [if_pos h1]
            simp [hwf.1.1.1, hwf.1.1.2, ihf fc rfl hfcw, hscw]
          · by_cases h2 : hasFocusedChild env sc
            · rw [if_neg h1, if_pos h2]
              simp [hwf.1.1.1, hwf.1.1.2, hfcw, ihs sc rfl hscw]
            · rw [if_neg h1, if_neg h2]
              simp [hwf.1.1.1, hwf.1.1.2, hfcw, hscw]
    | horizontal =>
      rw [splitHorizontal_horiz]
      simp only [wfB_horiz, Bool.and_eq_true] at hwf
      cases f with
      | none => simp at hwf
      | some fc =>
        cases s with
        | none => simp at hwf
        | some sc =>
          dsimp only
          have hfcw : fc.wfB = true := by simpa using hwf.1.2
          have hscw : sc.wfB = true := by simpa using hwf.2
          by_cases h1 : hasFocusedChild env fc
          · rw [if_pos h1]
            simp [hwf.1.1.1, hwf.1.1.2, ihf fc rfl hfcw, hscw]
          · by_cases h2 : hasFocusedChild env sc
            · rw [if_neg h1, if_pos h2]
              simp [hwf.1.1.1, hwf.1.1.2, hfcw, ihs sc rfl hscw]
            · rw [if_neg h1, if_neg h2]
              simp [hwf.1.1.1, hwf.1.1.2, hfcw, hscw]

/-!  Claim theorems  -/

/-- Claim C1: for every reachable tree state (well-formed, satisfying the
focus invariant, with the external UI reporting focus for at most one of the
tree's controls), every mutating operation preserves the tree-wide invariant
that at most one Leaf has `_lastFocused = true` (and no Split has it):
`SplitVertical`, `SplitHorizontal`, `_CloseChild` and `CheckFocus` all map
`focusOk` states to `focusOk` states. -/
theorem claim_C1_mutations_preserve_atMostOneFocused
    (env : FocusEnv) (g : Nat) (ctrl : TermControl) (cf : Bool) (p : Pane)
    (hwf : p.wfB = true) (hfo : p.focusOk)
    (henv : (p.allControls.filter (fun t => env t.cid)).length ≤ 1) :
    (splitVertical env g ctrl p).focusOk ∧
    (splitHorizontal env g ctrl p).focusOk ∧
    (closeChild p cf).1.focusOk ∧
    (checkFocus env p).focusOk := by
  refine ⟨⟨le_trans (focusCount_splitVertical_le env g ctrl p) hfo.1,
           splitsUnfocused_splitVertical env g ctrl p hfo.2⟩,
          ⟨le_trans (focusCount_splitHorizontal_le env g ctrl p) hfo.1,
           splitsUnfocused_splitHorizontal env g ctrl p hfo.2⟩,
          closeChild_focusOk p cf hwf hfo,
          ⟨le_trans (focusCount_checkFocus_le env p) henv,
           splitsUnfocused_checkFocus env p⟩⟩

/-- Witness for C1: a concrete focused leaf, an unfocused UI. -/
theorem claim_C1_witness :
    (mkPane 0 ⟨0, 0, true⟩ true).wfB = true ∧
    (mkPane 0 ⟨0, 0, true⟩ true).focusOk ∧
    ((mkPane 0 ⟨0, 0, true⟩ true).allControls.filter
      (fun t => (fun _ => false : FocusEnv) t.cid)).length ≤ 1 ∧
    ((splitVertical (fun _ => false) 1 ⟨1, 0, true⟩
        (mkPane 0 ⟨0, 0, true⟩ true)).focusOk ∧
     (splitHorizontal (fun _ => false) 1 ⟨1, 0, true⟩
        (mkPane 0 ⟨0, 0, true⟩ true)).focusOk ∧
     (closeChild (mkPane 0 ⟨0, 0, true⟩ true) true).1.focusOk ∧
     (checkFocus (fun _ => false) (mkPane 0 ⟨0, 0, true⟩ true)).focusOk) :=
  ⟨by decide, by decide, by decide,
   claim_C1_mutations_preserve_atMostOneFocused (fun _ => false) 1
     ⟨1, 0, true⟩ true (mkPane 0 ⟨0, 0, true⟩ true)
     (by decide) (by decide) (by decide)⟩

/-- Claim C6: on well-formed (reachable) nodes, Leaf and Split are exclusive
and exhaustive: `_IsLeaf` is true iff `_splitState == None`, iff both
children are absent, iff the control is present, iff the profile is present;
and the constructor, both splits and `_CloseChild` preserve well-formedness. -/
theorem claim_C6_leaf_split_exclusivity
    (env : FocusEnv) (g g0 : Nat) (ctrl c0 : TermControl) (lf0 cf : Bool)
    (p : Pane) (hwf : p.wfB = true) :
    (mkPane g0 c0 lf0).wfB = true ∧
    (splitVertical env g ctrl p).wfB = true ∧
    (splitHorizontal env g ctrl p).wfB = true ∧
    (closeChild p cf).1.wfB = true ∧
    (p.isLeaf = true ↔ p.splitState = SplitState.none) ∧
    p.isLeaf = (p.firstChild.isNone && p.secondChild.isNone) ∧
    p.isLeaf = p.control.isSome ∧
    p.isLeaf = p.profile.isSome := by
  have hmk : (mkPane g0 c0 lf0).wfB = true := by simp [mkPane]
  have hiff : p.isLeaf = true ↔ p.splitState = SplitState.none := by
    cases p with
    | mk ss c pr lf f s => simp [Pane.isLeaf]
  have hrest : p.isLeaf = (p.firstChild.isNone && p.secondChild.isNone) ∧
      p.isLeaf = p.control.isSome ∧ p.isLeaf = p.profile.isSome := by
    by_cases hl : p.isLeaf = true
    · obtain ⟨h1, h2, h3, h4⟩ := wfB_leaf_fields p hl hwf
      rw [hl, h1, h2, h3, h4]
      exact ⟨rfl, rfl, rfl⟩
    · have hl' : p.isLeaf = false := by simpa using hl
      obtain ⟨h1, h2, ⟨a, ha, _⟩, ⟨b, hb, _⟩⟩ := wfB_split_fields p hl' hwf
      rw [hl', h1, h2, ha, hb]
      exact ⟨rfl, rfl, rfl⟩
  exact ⟨hmk, wfB_splitVertical env g ctrl p hwf,
    wfB_splitHorizontal env g ctrl p hwf, closeChild_wfB p cf hwf,
    hiff, hrest.1, hrest.2.1, hrest.2.2⟩

/-- Witness for C6 at a concrete two-leaf split tree. -/
theorem claim_C6_witness :
    (Pane.mk SplitState.vertical none none false
      (some (mkPane 0 ⟨0, 0, true⟩ true))
      (some (mkPane 1 ⟨1, 0, true⟩ false))).wfB = true ∧
    ((mkPane 2 ⟨2, 0, true⟩ false).wfB = true ∧
     (splitVertical (fun _ => false) 3 ⟨3, 0, true⟩
        (Pane.mk SplitState.vertical none none false
          (some (mkPane 0 ⟨0, 0, true⟩ true))
          (some (mkPane 1 ⟨1, 0, true⟩ false)))).wfB = true ∧
     (splitHorizontal (fun _ => false) 3 ⟨3, 0, true⟩
        (Pane.mk SplitState.vertical none none false
          (some (mkPane 0 ⟨0, 0, true⟩ true))
          (some (mkPane 1 ⟨1, 0, true⟩ false)))).wfB = true ∧
     (closeChild (Pane.mk SplitState.vertical none none false
          (some (mkPane 0 ⟨0, 0, true⟩ true))
          (some (mkPane 1 ⟨1, 0, true⟩ false))) true).1.wfB = true ∧
     ((Pane.mk SplitState.vertical none none false
          (some (mkPane 0 ⟨0, 0, true⟩ true))
          (some (mkPane 1 ⟨1, 0, true⟩ false))).isLeaf = true ↔
       (Pane.mk SplitState.vertical none none false
          (some (mkPane 0 ⟨0, 0, true⟩ true))
          (some (mkPane 1 ⟨1, 0, true⟩ false))).splitState =
         SplitState.none) ∧
     (Pane.mk SplitState.vertical none none false
        (some (mkPane 0 ⟨0, 0, true⟩ true))
        (some (mkPane 1 ⟨1, 0, true⟩ false))).isLeaf =
       ((Pane.mk SplitState.vertical none none false
          (some (mkPane 0 ⟨0, 0, true⟩ true))
          (some (mkPane 1 ⟨1, 0, true⟩ false))).firstChild.isNone &&
        (Pane.mk SplitState.vertical none none false
          (some (mkPane 0 ⟨0, 0, true⟩ true))
          (some (mkPane 1 ⟨1, 0, true⟩ false))).secondChild.isNone) ∧
     (Pane.mk SplitState.vertical none none false
        (some (mkPane 0 ⟨0, 0, true⟩ true))
        (some (mkPane 1 ⟨1, 0, true⟩ false))).isLeaf =
       (Pane.mk SplitState.vertical none none false
          (some (mkPane 0 ⟨0, 0, true⟩ true))
          (some (mkPane 1 ⟨1, 0, true⟩ false))).control.isSome ∧
     (Pane.mk SplitState.vertical none none false
        (some (mkPane 0 ⟨0, 0, true⟩ true))
        (some (mkPane 1 ⟨1, 0, true⟩ false))).isLeaf =
       (Pane.mk SplitState.vertical none none false
          (some (mkPane 0 ⟨0, 0, true⟩ true))
          (some (mkPane 1 ⟨1, 0, true⟩ false))).profile.isSome) :=
  ⟨by decide,
   claim_C6_leaf_split_exclusivity (fun _ => false) 3 2 ⟨3, 0, true⟩
     ⟨2, 0, true⟩ false true
     (Pane.mk SplitState.vertical none none false
       (some (mkPane 0 ⟨0, 0, true⟩ true))
       (some (mkPane 1 ⟨1, 0, true⟩ false))) (by decide)⟩

/-- Claim C8: `CheckUpdateSettings` applies the settings to every leaf whose
profile matches (expressed by the `leafData` map equation, which updates all
matching leaves and no others), changes nothing except settings values (the
`eraseSettings` frame equation: split states, children, profiles, focus
flags and control identities are untouched), and when zero leaves match it
mutates nothing at all. -/
theorem claim_C8_checkUpdateSettings_frame (st g : Nat) (p : Pane) :
    (checkUpdateSettings st g p).eraseSettings = p.eraseSettings ∧
    (checkUpdateSettings st g p).leafData =
      p.leafData.map (fun d =>
        if d.1 = some g then (d.1, d.2.map (TermControl.withSettings st))
        else d) ∧
    ((∀ d ∈ p.leafData, d.1 ≠ some g) → checkUpdateSettings st g p = p) :=
  ⟨eraseSettings_checkUpdateSettings st g p,
   leafData_checkUpdateSettings st g p,
   checkUpdateSettings_noMatch st g p⟩

/-- Witness for C8: a profile matching no leaf mutates nothing. -/
theorem claim_C8_witness :
    (∀ d ∈ (mkPane 0 ⟨0, 0, true⟩ true).leafData, d.1 ≠ some 9) ∧
    checkUpdateSettings 5 9 (mkPane 0 ⟨0, 0, true⟩ true) =
      mkPane 0 ⟨0, 0, true⟩ true :=
  ⟨by decide,
   (claim_C8_checkUpdateSettings_frame 5 9 (mkPane 0 ⟨0, 0, true⟩ true)).2.2
     (by decide)⟩

/-- Claim C9: `GetLastFocusedTerminalControl` (resp. `GetLastFocusedProfile`)
returns the control (resp. profile) of the first focused leaf in
first-child-before-second-child order — the recursion prefers the first
child and only consults the second when the first yields none — and returns
none exactly when no leaf of the subtree is marked `_lastFocused` (with a
present control resp. profile).  Both are pure functions of the tree. -/
theorem claim_C9_getLastFocused_traversal (p : Pane) :
    getLastFocusedTerminalControl p = p.focusedControls.head? ∧
    getLastFocusedProfile p = p.focusedProfiles.head? ∧
    (getLastFocusedTerminalControl p = none ↔ p.focusedControls = []) ∧
    (getLastFocusedProfile p = none ↔ p.focusedProfiles = []) := by
  obtain ⟨h1, h2⟩ := getLastFocused_eq_head? p
  refine ⟨h1, h2, ?_, ?_⟩
  · rw [h1]
    exact List.head?_eq_none_iff
  · rw [h2]
    exact List.head?_eq_none_iff

/-- Claim C10: a leaf pane whose session terminates raises its own `Closed`
event iff the control's `CloseOnExit` flag is set (first conjunct); when
every control of the given identity in the tree has `CloseOnExit = false`,
session termination changes nothing anywhere in the tree (second conjunct);
and when a direct child does raise `Closed`, the parent responds by running
`_CloseChild` on the corresponding side (third and fourth conjuncts). -/
theorem claim_C10_connectionClosed_closeOnExit (p : Pane) (cid : Nat)
    (ctrl : TermControl) (pr : Option Nat) (lf : Bool)
    (hq : ∀ t ∈ p.allControls, t.cid = cid → t.closeOnExit = false) :
    raisesClosed (.mk SplitState.none (some ctrl) pr lf none none) ctrl.cid =
      ctrl.closeOnExit ∧
    sessionTerminated p cid = p ∧
    (∀ ss c pp ll (fc sc : Pane), raisesClosed fc cid = true →
      sessionTerminated (.mk ss c pp ll (some fc) (some sc)) cid =
        (closeChild (.mk ss c pp ll (some fc) (some sc)) true).1) ∧
    (∀ ss c pp ll (fc sc : Pane), raisesClosed fc cid = false →
      raisesClosed sc cid = true →
      sessionTerminated (.mk ss c pp ll (some fc) (some sc)) cid =
        (closeChild (.mk ss c pp ll (some fc) (some sc)) false).1) := by
  refine ⟨?_, sessionTerminated_noop p cid hq, ?_, ?_⟩
  · simp [raisesClosed, connectionClosedFires, Pane.isLeaf]
  · intro ss c pp ll fc sc h1
    rw [sessionTerminated_mk]
    dsimp only
    rw [if_pos h1]
  · intro ss c pp ll fc sc h1 h2
    rw [sessionTerminated_mk]
    dsimp only
    rw [if_neg (by simp [h1]), if_pos h2]

/-- Witness for C10: a leaf whose control has `CloseOnExit = false`; its
termination leaves the tree unchanged. -/
theorem claim_C10_witness :
    (∀ t ∈ (mkPane 0 ⟨0, 0, false⟩ true).allControls,
      t.cid = 0 → t.closeOnExit = false) ∧
    sessionTerminated (mkPane 0 ⟨0, 0, false⟩ true) 0 =
      mkPane 0 ⟨0, 0, false⟩ true :=
  ⟨by decide,
   (claim_C10_connectionClosed_closeOnExit (mkPane 0 ⟨0, 0, false⟩ true) 0
     ⟨7, 0, true⟩ none false (by decide)).2.1⟩

/-- Counterexample to Claim C2 as stated: a focused leaf, split vertically;
before the split `GetLastFocusedTerminalControl` returned the leaf's control,
afterwards it returns none over the new subtree (both freshly constructed
children start with `_lastFocused = false`), not "whatever it returned
before the split". -/
theorem claim_C2_counterexample :
    (mkPane 0 ⟨0, 0, true⟩ true).lastFocused = true ∧
    getLastFocusedTerminalControl (mkPane 0 ⟨0, 0, true⟩ true) =
      some ⟨0, 0, true⟩ ∧
    getLastFocusedTerminalControl
        (splitVertical (fun _ => false) 1 ⟨1, 0, true⟩
          (mkPane 0 ⟨0, 0, true⟩ true)) ≠
      getLastFocusedTerminalControl (mkPane 0 ⟨0, 0, true⟩ true) :=
  ⟨rfl, rfl, by decide⟩

/-- Claim C2 (amended): splitting a well-formed Leaf with either orientation
turns it into a Split with exactly two Leaf children, the first holding the
original control and profile and the second holding the new ones; afterwards
`GetLastFocusedTerminalControl` / `GetLastFocusedProfile` over the new
subtree return none unconditionally — also when the original leaf was marked
`_lastFocused` — because both new leaves are constructed unfocused and focus
is only re-established by a later `CheckFocus`. -/
theorem claim_C2_split_structure (env : FocusEnv) (g g0 : Nat)
    (ctrl c0 : TermControl) (lf : Bool) :
    splitVertical env g ctrl
        (.mk SplitState.none (some c0) (some g0) lf none none) =
      .mk SplitState.vertical none none false
        (some (.mk SplitState.none (some c0) (some g0) false none none))
        (some (.mk SplitState.none (some ctrl) (some g) false none none)) ∧
    splitHorizontal env g ctrl
        (.mk SplitState.none (some c0) (some g0) lf none none) =
      .mk SplitState.horizontal none none false
        (some (.mk SplitState.none (some c0) (some g0) false none none))
        (some (.mk SplitState.none (some ctrl) (some g) false none none)) ∧
    getLastFocusedTerminalControl (splitVertical env g ctrl
      (.mk SplitState.none (some c0) (some g0) lf none none)) = none ∧
    getLastFocusedProfile (splitVertical env g ctrl
      (.mk SplitState.none (some c0) (some g0) lf none none)) = none ∧
    getLastFocusedTerminalControl (splitHorizontal env g ctrl
      (.mk SplitState.none (some c0) (some g0) lf none none)) = none ∧
    getLastFocusedProfile (splitHorizontal env g ctrl
      (.mk SplitState.none (some c0) (some g0) lf none none)) = none := by
  refine ⟨?_, ?_, ?_, ?_, ?_, ?_⟩ <;>
    simp [splitVertical_leaf, splitHorizontal_leaf, defaultLastFocused]

/-- Counterexample to Claim C3 as stated: split a focused leaf, then close
the newly created second child; the restored leaf has the original control
and profile but `_lastFocused = false`, not the original value `true`
(`_CloseChild` ORs the two children's flags, and both were created false). -/
theorem claim_C3_counterexample :
    (mkPane 0 ⟨0, 0, true⟩ true).lastFocused = true ∧
    (closeChild (splitVertical (fun _ => false) 1 ⟨1, 0, true⟩
        (mkPane 0 ⟨0, 0, true⟩ true)) false).1.lastFocused = false ∧
    (closeChild (splitVertical (fun _ => false) 1 ⟨1, 0, true⟩
        (mkPane 0 ⟨0, 0, true⟩ true)) false).1 ≠
      mkPane 0 ⟨0, 0, true⟩ true := by
  exact ⟨rfl, rfl, fun h => absurd (congrArg Pane.lastFocused h) (by decide)⟩

/-- Claim C3 (amended): splitting a well-formed Leaf and then immediately
closing the newly created second child restores a Leaf at that position with
exactly the original control and profile, but with `_lastFocused = false`:
the original focus flag is not restored (it was already cleared by the
split, and `_CloseChild` ORs the two unfocused children's flags). -/
theorem claim_C3_split_close_roundTrip (env : FocusEnv) (g g0 : Nat)
    (ctrl c0 : TermControl) (lf : Bool) :
    (closeChild (splitVertical env g ctrl
        (.mk SplitState.none (some c0) (some g0) lf none none)) false).1 =
      .mk SplitState.none (some c0) (some g0) false none none ∧
    (closeChild (splitHorizontal env g ctrl
        (.mk SplitState.none (some c0) (some g0) lf none none)) false).1 =
      .mk SplitState.none (some c0) (some g0) false none none := by
  constructor
  · rw [splitVertical_leaf, closeChild_mk]
    simp [defaultLastFocused, Pane.isLeaf]
  · rw [splitHorizontal_leaf, closeChild_mk]
    simp [defaultLastFocused, Pane.isLeaf]

/-- Claim C4: on a node with two children whose surviving (non-closing)
child is a Leaf, `_CloseChild` turns the node into a Leaf adopting the
surviving child's control and profile, sets its `_lastFocused` to the OR of
the two children's flags, sets `_splitState = None`, releases both child
subtrees, and requests programmatic input focus for the adopted control
exactly when the resulting flag is true. -/
theorem claim_C4_closeChild_leaf_sibling (ss : SplitState)
    (c : Option TermControl) (pr : Option Nat) (lf : Bool) (fc sc : Pane)
    (cf : Bool) (hr : (if cf then sc else fc).isLeaf = true) :
    closeChild (.mk ss c pr lf (some fc) (some sc)) cf =
      (.mk SplitState.none ((if cf then sc else fc).control)
         ((if cf then sc else fc).profile)
         (fc.lastFocused || sc.lastFocused) none none,
       if fc.lastFocused || sc.lastFocused then
         ((if cf then sc else fc).control).map TermControl.cid
       else none) := by
  rw [closeChild_mk]
  dsimp only
  rw [if_pos hr, ite_pane_control, ite_pane_profile]

/-- Witness for C4 at the spec's concrete scenario: first child
Leaf(A, focused), second child Leaf(B, unfocused); closing the second child
yields Leaf(A, focused) and a focus request for A's control. -/
theorem claim_C4_witness :
    (if false then mkPane 1 ⟨1, 0, true⟩ false
     else mkPane 0 ⟨0, 0, true⟩ true).isLeaf = true ∧
    closeChild (.mk SplitState.vertical none none false
        (some (mkPane 0 ⟨0, 0, true⟩ true))
        (some (mkPane 1 ⟨1, 0, true⟩ false))) false =
      (mkPane 0 ⟨0, 0, true⟩ true, some 0) :=
  ⟨by decide,
   claim_C4_closeChild_leaf_sibling SplitState.vertical none none false
     (mkPane 0 ⟨0, 0, true⟩ true) (mkPane 1 ⟨1, 0, true⟩ false) false
     (by decide)⟩

/-- Claim C5: on a node with two children whose surviving (non-closing)
child is itself a Split, `_CloseChild` makes the node adopt the surviving
child's `_splitState`, `_firstChild` and `_secondChild` in place (its own
control, profile and focus flag are untouched and no focus request is
issued).  The close-handler rewiring is expressed behaviourally: any
subsequent `_CloseChild` on the node acts exactly as it would on a node
built directly from the adopted structure, and in particular closing an
adopted grandchild whose sibling is a leaf collapses correctly (no stale
reference to the discarded intermediate node). -/
theorem claim_C5_closeChild_split_sibling (ss : SplitState)
    (c : Option TermControl) (pr : Option Nat) (lf : Bool) (fc sc : Pane)
    (cf : Bool) (hr : (if cf then sc else fc).isLeaf = false) :
    closeChild (.mk ss c pr lf (some fc) (some sc)) cf =
      (.mk ((if cf then sc else fc).splitState) c pr lf
         ((if cf then sc else fc).firstChild)
         ((if cf then sc else fc).secondChild), none) ∧
    (∀ b, closeChild (closeChild (.mk ss c pr lf (some fc) (some sc)) cf).1 b =
      closeChild (.mk ((if cf then sc else fc).splitState) c pr lf
        ((if cf then sc else fc).firstChild)
        ((if cf then sc else fc).secondChild)) b) ∧
    (∀ rss rc rpr rlf (gc1 gc2 : Pane),
      (if cf then sc else fc) = .mk rss rc rpr rlf (some gc1) (some gc2) →
      gc2.isLeaf = true →
      (closeChild (closeChild (.mk ss c pr lf (some fc) (some sc)) cf).1
          true).1 =
        .mk SplitState.none gc2.control gc2.profile
          (gc1.lastFocused || gc2.lastFocused) none none) := by
  have h1 : closeChild (.mk ss c pr lf (some fc) (some sc)) cf =
      (.mk ((if cf then sc else fc).splitState) c pr lf
         ((if cf then sc else fc).firstChild)
         ((if cf then sc else fc).secondChild), none) := by
    rw [closeChild_mk]
    dsimp only
    rw [if_neg (by simp [hr])]
  refine ⟨h1, fun b => by rw [h1], ?_⟩
  intro rss rc rpr rlf gc1 gc2 hrem hgc2
  rw [h1, hrem]
  simp only [Pane.splitState_mk, Pane.firstChild_mk, Pane.secondChild_mk]
  rw [closeChild_mk]
  simp [hgc2]

/-- Witness for C5 at the spec's concrete scenario: first child a Leaf,
second child a Split of two Leaf grandchildren; closing the first child
yields the adopted split, and then closing the first grandchild collapses
to the surviving grandchild's leaf (which inherits the focus flag). -/
theorem claim_C5_witness :
    (if true then Pane.mk SplitState.horizontal none none false
       (some (mkPane 1 ⟨1, 0, true⟩ true))
       (some (mkPane 2 ⟨2, 0, true⟩ false))
     else mkPane 0 ⟨0, 0, true⟩ false).isLeaf = false ∧
    closeChild (.mk SplitState.vertical none none false
        (some (mkPane 0 ⟨0, 0, true⟩ false))
        (some (Pane.mk SplitState.horizontal none none false
          (some (mkPane 1 ⟨1, 0, true⟩ true))
          (some (mkPane 2 ⟨2, 0, true⟩ false))))) true =
      (.mk SplitState.horizontal none none false
         (some (mkPane 1 ⟨1, 0, true⟩ true))
         (some (mkPane 2 ⟨2, 0, true⟩ false)), none) ∧
    (closeChild (closeChild (.mk SplitState.vertical none none false
        (some (mkPane 0 ⟨0, 0, true⟩ false))
        (some (Pane.mk SplitState.horizontal none none false
          (some (mkPane 1 ⟨1, 0, true⟩ true))
          (some (mkPane 2 ⟨2, 0, true⟩ false))))) true).1 true).1 =
      mkPane 2 ⟨2, 0, true⟩ true := by
  have h := claim_C5_closeChild_split_sibling SplitState.vertical none none
    false (mkPane 0 ⟨0, 0, true⟩ false)
    (Pane.mk SplitState.horizontal none none false
      (some (mkPane 1 ⟨1, 0, true⟩ true))
      (some (mkPane 2 ⟨2, 0, true⟩ false))) true (by decide)
  exact ⟨by decide, h.1, h.2.2 SplitState.horizontal none none false
    (mkPane 1 ⟨1, 0, true⟩ true) (mkPane 2 ⟨2, 0, true⟩ false)
    rfl (by decide)⟩

/-- Claim C7: invoking a split on a node with two children dispatches on the
live focus signal: if neither child reports a focused descendant, both
`SplitVertical` and `SplitHorizontal` leave the tree unchanged (a silent
no-op, no error); if the first child reports focus the operation recurses
into the first child only (first-child preference, even if the second also
reports focus); otherwise, if only the second child reports focus, it
recurses into the second child only. -/
theorem claim_C7_split_noFocus_noop (env : FocusEnv) (g : Nat)
    (ctrl : TermControl) (ss : SplitState) (c : Option TermControl)
    (pr : Option Nat) (lf : Bool) (fc sc : Pane)
    (hss : ss ≠ SplitState.none) :
    (hasFocusedChild env fc = false → hasFocusedChild env sc = false →
      splitVertical env g ctrl (.mk ss c pr lf (some fc) (some sc)) =
        .mk ss c pr lf (some fc) (some sc) ∧
      splitHorizontal env g ctrl (.mk ss c pr lf (some fc) (some sc)) =
        .mk ss c pr lf (some fc) (some sc)) ∧
    (hasFocusedChild env fc = true →
      splitVertical env g ctrl (.mk ss c pr lf (some fc) (some sc)) =
        .mk ss c pr lf (some (splitVertical env g ctrl fc)) (some sc) ∧
      splitHorizontal env g ctrl (.mk ss c pr lf (some fc) (some sc)) =
        .mk ss c pr lf (some (splitHorizontal env g ctrl fc)) (some sc)) ∧
    (hasFocusedChild env fc = false → hasFocusedChild env sc = true →
      splitVertical env g ctrl (.mk ss c pr lf (some fc) (some sc)) =
        .mk ss c pr lf (some fc) (some (splitVertical env g ctrl sc)) ∧
      splitHorizontal env g ctrl (.mk ss c pr lf (some fc) (some sc)) =
        .mk ss c pr lf (some fc) (some (splitHorizontal env g ctrl sc))) := by
  cases ss with
  | none => exact absurd rfl hss
  | vertical =>
    refine ⟨fun h1 h2 => ⟨?_, ?_⟩, fun h1 => ⟨?_, ?_⟩, fun h1 h2 => ⟨?_, ?_⟩⟩
    · rw [splitVertical_vert]
      dsimp only
      rw [if_neg (by simp [h1]), if_neg (by simp [h2])]
    · rw [splitHorizontal_vert]
      dsimp only
      rw [if_neg (by simp [h1]), if_neg (by simp [h2])]
    · rw [splitVertical_vert]
      dsimp only
      rw [if_pos h1]
    · rw [splitHorizontal_vert]
      dsimp only
      rw [if_pos h1]
    · rw [splitVertical_vert]
      dsimp only
      rw [if_neg (by simp [h1]), if_pos h2]
    · rw [splitHorizontal_vert]
      dsimp only
      rw [if_neg (by simp [h1]), if_pos h2]
  | horizontal =>
    refine ⟨fun h1 h2 => ⟨?_, ?_⟩, fun h1 => ⟨?_, ?_⟩, fun h1 h2 => ⟨?_, ?_⟩⟩
    · rw [splitVertical_horiz]
      dsimp only
      rw [if_neg (by simp [h1]), if_neg (by simp [h2])]
    · rw [splitHorizontal_horiz]
      dsimp only
      rw [if_neg (by simp [h1]), if_neg (by simp [h2])]
    · rw [splitVertical_horiz]
      dsimp only
      rw [if_pos h1]
    · rw [splitHorizontal_horiz]
      dsimp only
      rw [if_pos h1]
    · rw [splitVertical_horiz]
      dsimp only
      rw [if_neg (by simp [h1]), if_pos h2]
    · rw [splitHorizontal_horiz]
      dsimp only
      rw [if_neg (by simp [h1]), if_pos h2]

/-- Witness for C7: concrete two-leaf split, UI focusing nothing: the
split operations are no-ops. -/
theorem claim_C7_witness :
    SplitState.vertical ≠ SplitState.none ∧
    (splitVertical (fun _ => false) 9 ⟨9, 0, true⟩
        (.mk SplitState.vertical none none false
          (some (mkPane 0 ⟨0, 0, true⟩ true))
          (some (mkPane 1 ⟨1, 0, true⟩ false))) =
      .mk SplitState.vertical none none false
        (some (mkPane 0 ⟨0, 0, true⟩ true))
        (some (mkPane 1 ⟨1, 0, true⟩ false)) ∧
     splitHorizontal (fun _ => false) 9 ⟨9, 0, true⟩
        (.mk SplitState.vertical none none false
          (some (mkPane 0 ⟨0, 0, true⟩ true))
          (some (mkPane 1 ⟨1, 0, true⟩ false))) =
      .mk SplitState.vertical none none false
        (some (mkPane 0 ⟨0, 0, true⟩ true))
        (some (mkPane 1 ⟨1, 0, true⟩ false))) :=
  ⟨by decide,
   (claim_C7_split_noFocus_noop (fun _ => false) 9 ⟨9, 0, true⟩
     SplitState.vertical none none false (mkPane 0 ⟨0, 0, true⟩ true)
     (mkPane 1 ⟨1, 0, true⟩ false) (by decide)).1 (by decide) (by decide)⟩
